import Mathlib

/-!
Verification of the shopping-agent core (tool-orchestration loop, dataset
query facade, session history) against its natural-language specification.

The Python source is shallowly embedded:

* `src/backend/app/data/phone_service.py` → the `*Svc` functions below;
* `src/backend/app/agent/tools.py`        → `searchPhonesTool`, `getBestCameraPhonesTool`;
* `src/backend/app/agent/agent_builder.py` → `addToHistory`,
  `getPhonesFromToolCall`, `processToolCall`, `runLoop`, `chat`.

Python dynamic values carried in tool-call argument mappings are modelled by
`PyVal`; Python exceptions are modelled by `Except String`.  The remote model
backend is modelled by a script of responses: one `BackendStep` per backend
call, where `BackendStep.raise` models the call raising an exception (an
exhausted script likewise models an unreachable backend).
-/

namespace MobileAgent

/-- Python `str.strip()` (structural, so that the kernel can evaluate it). -/
def strTrim (s : String) : String :=
  ⟨((s.data.dropWhile Char.isWhitespace).reverse.dropWhile Char.isWhitespace).reverse⟩

/-- The characters before the first occurrence of `sep` (the whole list when
`sep` does not occur). -/
def takeUntilSub (sep : List Char) : List Char → List Char
  | [] => []
  | c :: t => if List.isPrefixOf sep (c :: t) then [] else c :: takeUntilSub sep t

/-- Python `s.split(sep)[0]` for a non-empty `sep`. -/
def beforeFirst (s sep : String) : String := ⟨takeUntilSub sep.data s.data⟩

/-- Worker for `splitOnSub`, fuelled so that it is structural. -/
def splitOnAuxSub (sep : List Char) : Nat → List Char → List Char → List (List Char)
  | 0, _, acc => [acc.reverse]
  | _ + 1, [], acc => [acc.reverse]
  | n + 1, c :: t, acc =>
    if List.isPrefixOf sep (c :: t) then
      acc.reverse :: splitOnAuxSub sep n (List.drop (sep.length - 1) t) []
    else splitOnAuxSub sep n t (c :: acc)

/-- Python `s.split(sep)` for a non-empty separator. -/
def splitOnSub (s sep : String) : List String :=
  if sep.data.isEmpty then [s]
  else (splitOnAuxSub sep.data (s.data.length + 1) s.data []).map (fun l => ⟨l⟩)

/-- Numeric value of a digit list. -/
def digitsToNat (l : List Char) : Nat :=
  l.foldl (fun acc c => acc * 10 + (c.toNat - 48)) 0

/-- Python `int(s)` on a string: surrounding whitespace allowed, optional
sign, at least one digit, nothing else. -/
def pyParseInt (s : String) : Option Int :=
  match (strTrim s).data with
  | [] => Option.none
  | '-' :: t => if !t.isEmpty && t.all Char.isDigit then some (-(digitsToNat t : Int)) else Option.none
  | '+' :: t => if !t.isEmpty && t.all Char.isDigit then some ((digitsToNat t : Int)) else Option.none
  | l => if l.all Char.isDigit then some ((digitsToNat l : Int)) else Option.none

/-- Python `str.split()[0]`: the first whitespace-delimited token. -/
def firstToken (s : String) : String :=
  ⟨(s.data.dropWhile Char.isWhitespace).takeWhile (fun c => !c.isWhitespace)⟩

/-- A dynamic (JSON-decoded) Python value appearing in a tool-argument map. -/
inductive PyVal
  | str (s : String)
  | int (n : Int)
  | bool (b : Bool)
  | none
deriving DecidableEq

/-- Python truthiness of a `PyVal` (`if v:`). -/
def pyTruthy : PyVal → Bool
  | .str s => s ≠ ""
  | .int n => n ≠ 0
  | .bool b => b
  | .none => false

/-- Python `int(v)`; a non-numeric string raises `ValueError`
(`String.toInt?` approximates Python integer-literal parsing). -/
def pyIntOfVal : PyVal → Except String Int
  | .int n => .ok n
  | .bool b => .ok (if b then 1 else 0)
  | .str s =>
    match pyParseInt s with
    | some n => .ok n
    | Option.none => .error ("invalid literal for int() with base 10: '" ++ s ++ "'")
  | .none => .error "int() argument must be a string, a bytes-like object or a real number, not 'NoneType'"

/-- A tool-argument mapping (`dict[str, Any]` from `json.loads`). -/
abbrev Args := List (String × PyVal)

/-- `args.get(k)` — `none` when the key is missing. -/
def Args.get (args : Args) (k : String) : Option PyVal :=
  (List.find? (fun kv => kv.1 == k) args).map (fun kv => kv.2)

/-- `args.get(k, default)`. -/
def Args.getDflt (args : Args) (k : String) (dflt : PyVal) : PyVal :=
  (Args.get args k).getD dflt

/-- Lowercase a string (Python `str.lower`, restricted to `Char.toLower`). -/
def strToLower (s : String) : String := ⟨s.data.map Char.toLower⟩

/-- `pat` occurs as a contiguous sublist of `s`. -/
def listContainsSub (pat : List Char) : List Char → Bool
  | [] => pat.isEmpty
  | c :: t => List.isPrefixOf pat (c :: t) || listContainsSub pat t

/-- Python substring containment `pat in s`. -/
def strContainsSub (s pat : String) : Bool := listContainsSub pat.data s.data


/-- Python slice `l[:n]` (negative `n` counts from the end). -/
def pySliceTo (n : Int) (l : List α) : List α :=
  if 0 ≤ n then l.take n.toNat else l.take (l.length - (-n).toNat)

/-- Python slice `l[:n]` where `n` may be `None` (`l[:None] = l`). -/
def pySliceToOpt (n : Option Int) (l : List α) : List α :=
  match n with
  | some m => pySliceTo m l
  | Option.none => l

/-! ## Phone data model (`phones.json` records, the fields the code reads) -/

structure Display where
  size : Rat
  dtype : String
  refreshRate : Int
deriving DecidableEq

structure Camera where
  main : String
  telephoto : Option String
  features : List String
deriving DecidableEq

structure Battery where
  capacity : Int
  charging : String
deriving DecidableEq

structure Phone where
  id : String
  name : String
  brand : String
  price : Int
  ram : Int
  fiveG : Bool
  display : Display
  camera : Camera
  battery : Battery
  processor : String
  rating : Rat
  highlights : List String
deriving DecidableEq

/-- `int(camera["main"].split()[0])` — main-camera megapixels.  The source
raises on a malformed spec string; database records are well-formed, so the
error case is defaulted to `0`. -/
def mainMP (s : String) : Int :=
  (pyParseInt (firstToken s)).getD 0

/-! ## Dataset query facade (`PhoneService`) -/

/-- `PhoneService.get_phone_by_id`. -/
def getPhoneById (phones : List Phone) (pid : String) : Option Phone :=
  List.find? (fun p => p.id == pid) phones

/-- Name-length comparison used to prefer the most specific (shortest-named)
fuzzy match in `get_phone_by_name`. -/
def nameLenLE (p q : Phone) : Prop := p.name.length ≤ q.name.length

instance : DecidableRel nameLenLE := fun p q => Nat.decLe _ _

instance : IsTotal Phone nameLenLE := ⟨fun p q => Nat.le_total _ _⟩

instance : IsTrans Phone nameLenLE := ⟨fun _ _ _ h h' => Nat.le_trans h h'⟩

/-- `PhoneService.get_phone_by_name` on an already lowercased/stripped key. -/
def getPhoneByNameCore (phones : List Phone) (nameLower : String) : Option Phone :=
  match List.find? (fun p => strToLower p.name == nameLower) phones with
  | some p => some p
  | Option.none =>
    let candidates := phones.filter (fun p => strContainsSub (strToLower p.name) nameLower)
    if candidates.isEmpty then Option.none
    else (List.insertionSort nameLenLE candidates).head?

/-- `PhoneService.get_phone_by_name`: exact match first, then substring
candidates sorted (stably) by name length, shortest first. -/
def getPhoneByName (phones : List Phone) (name : String) : Option Phone :=
  getPhoneByNameCore phones (strTrim (strToLower name))

/-- Descending stable sort by a rational score (Python
`scored.sort(key=lambda x: x[1], reverse=True)`). -/
def sortDescByScore (l : List (Phone × Rat)) : List (Phone × Rat) :=
  List.insertionSort (fun a b => b.2 ≤ a.2) l

/-- Relevance score given to a phone by the free-text `query` branch of
`PhoneService.search_phones`. -/
def queryScore (queryLower : String) (p : Phone) : Int :=
  (if strContainsSub (strToLower p.name) queryLower then 10 else 0)
  + (if strContainsSub (strToLower p.brand) queryLower then 5 else 0)
  + 3 * ((p.highlights.filter (fun h => strContainsSub (strToLower h) queryLower)).length : Int)
  + 2 * ((p.camera.features.filter (fun f => strContainsSub (strToLower f) queryLower)).length : Int)
  + (if strContainsSub (strToLower p.processor) queryLower then 2 else 0)

/-- One `if x is not None: results = [p for p in results if ...]` stage of
`PhoneService.search_phones`. -/
def noneFilter (o : Option β) (pred : β → Phone → Bool) (l : List Phone) : List Phone :=
  match o with
  | some x => l.filter (pred x)
  | Option.none => l

/-- The `if brand:` stage of `PhoneService.search_phones` (truthiness, not
an `is not None` test). -/
def brandFilter (brand : Option String) (l : List Phone) : List Phone :=
  match brand with
  | some b =>
    if b ≠ "" then l.filter (fun p => strToLower p.brand == strToLower b) else l
  | Option.none => l

/-- The `if query:` stage of `PhoneService.search_phones`: keep positively
scored phones, stably sorted by descending score. -/
def queryStage (query : Option String) (l : List Phone) : List Phone :=
  match query with
  | some q =>
    if q ≠ "" then
      let scored := (l.map (fun p => (p, (queryScore (strToLower q) p : Rat)))).filter
        (fun x => 0 < x.2)
      (sortDescByScore scored).map Prod.fst
    else l
  | Option.none => l

/-- `PhoneService.search_phones`: the source's filter chain in source order,
then the query stage, then the slice. -/
def searchPhonesSvc (phones : List Phone) (query brand : Option String)
    (min_price max_price min_ram : Option Int) (has_5g : Option Bool)
    (min_battery min_refresh_rate : Option Int) (has_ois : Option Bool)
    (limit : Option Int) : List Phone :=
  let results := brandFilter brand phones
  let results := noneFilter min_price (fun m p => decide (m ≤ p.price)) results
  let results := noneFilter max_price (fun m p => decide (p.price ≤ m)) results
  let results := noneFilter min_ram (fun m p => decide (m ≤ p.ram)) results
  let results := noneFilter has_5g (fun b p => p.fiveG == b) results
  let results := noneFilter min_battery (fun m p => decide (m ≤ p.battery.capacity)) results
  let results := noneFilter min_refresh_rate (fun m p => decide (m ≤ p.display.refreshRate)) results
  let results := noneFilter has_ois (fun b p => (p.camera.features.contains "OIS") == b) results
  pySliceToOpt limit (queryStage query results)

/-- `PhoneService.get_best_camera_phones`: truthy price cap, weighted camera
score, descending stable sort, slice. -/
def getBestCameraPhonesSvc (phones : List Phone) (max_price : Option Int)
    (limit : Option Int) : List Phone :=
  let results : List Phone := match max_price with
    | some m => if m ≠ 0 then phones.filter (fun p => p.price ≤ m) else phones
    | Option.none => phones
  let scored : List (Phone × Rat) := results.map (fun p =>
    let feats := p.camera.features
    let score : Rat :=
      (mainMP p.camera.main : Rat) / 10
      + (if p.camera.telephoto.isSome then 20 else 0)
      + (if feats.contains "OIS" then 10 else 0)
      + (if feats.contains "Hasselblad" || feats.contains "Leica" || feats.contains "ZEISS" then 15 else 0)
      + (if feats.contains "8K Video" then 10 else 0)
      + (if feats.contains "ProRAW" || feats.contains "ProRes" then 8 else 0)
      + p.rating * 5
    (p, score))
  (pySliceToOpt limit (sortDescByScore scored)).map Prod.fst

/-- `PhoneService.get_best_battery_phones`. -/
def getBestBatteryPhonesSvc (phones : List Phone) (max_price : Option Int)
    (limit : Option Int) : List Phone :=
  let results : List Phone := match max_price with
    | some m => if m ≠ 0 then phones.filter (fun p => p.price ≤ m) else phones
    | Option.none => phones
  let scored : List (Phone × Rat) := results.map (fun p =>
    let charging := p.battery.charging
    let score : Rat :=
      (p.battery.capacity : Rat) / 100
      + (if strContainsSub charging "120W" || strContainsSub charging "125W" then 30
         else if strContainsSub charging "100W" then 25
         else if strContainsSub charging "80W" || strContainsSub charging "90W" then 20
         else if strContainsSub charging "65W" || strContainsSub charging "67W" then 15
         else if strContainsSub charging "45W" then 10
         else 0)
      + (if strContainsSub (strToLower charging) "wireless" then 5 else 0)
    (p, score))
  (pySliceToOpt limit (sortDescByScore scored)).map Prod.fst

/-- `PhoneService.get_compact_phones`: truthy filters, display ≤ 6.4",
ascending stable sort by display size, slice. -/
def getCompactPhonesSvc (phones : List Phone) (min_price max_price min_ram : Option Int)
    (limit : Option Int) : List Phone :=
  let results : List Phone := match min_price with
    | some m => if m ≠ 0 then phones.filter (fun p => m ≤ p.price) else phones
    | Option.none => phones
  let results : List Phone := match max_price with
    | some m => if m ≠ 0 then results.filter (fun p => p.price ≤ m) else results
    | Option.none => results
  let results : List Phone := match min_ram with
    | some m => if m ≠ 0 then results.filter (fun p => m ≤ p.ram) else results
    | Option.none => results
  let results := results.filter (fun p => p.display.size ≤ (6.4 : Rat))
  let results := List.insertionSort (fun a b : Phone => a.display.size ≤ b.display.size) results
  pySliceToOpt limit results

/-- `PhoneService.get_gaming_phones`. -/
def getGamingPhonesSvc (phones : List Phone) (max_price : Option Int)
    (limit : Option Int) : List Phone :=
  let results : List Phone := match max_price with
    | some m => if m ≠ 0 then phones.filter (fun p => p.price ≤ m) else phones
    | Option.none => phones
  let scored : List (Phone × Rat) := results.map (fun p =>
    let proc := strToLower p.processor
    let score : Rat :=
      (p.display.refreshRate : Rat) / 10
      + (if strContainsSub proc "snapdragon 8 gen 3" then 50
         else if strContainsSub proc "snapdragon 8 gen 2" || strContainsSub proc "snapdragon 8s gen 3" then 40
         else if strContainsSub proc "snapdragon 8+ gen 1" then 35
         else if strContainsSub proc "dimensity 9" then 35
         else if strContainsSub proc "a17 pro" then 45
         else 0)
      + (p.ram : Rat) * 2
      + (p.battery.capacity : Rat) / 200
      + (if p.brand == "ASUS" || p.brand == "iQOO" then 10 else 0)
      + 15 * ((p.highlights.filter (fun h => strContainsSub (strToLower h) "gaming")).length : Rat)
    (p, score))
  (pySliceToOpt limit (sortDescByScore scored)).map Prod.fst

/-- `PhoneService.compare_phones`: resolve each token by id, then by name,
silently dropping unresolved tokens. -/
def comparePhonesSvc (phones : List Phone) (phone_ids : List String) : List Phone :=
  phone_ids.foldl (fun acc pid =>
    let phone := match getPhoneById phones pid with
      | some p => some p
      | Option.none => getPhoneByName phones pid
    match phone with
    | some p => acc ++ [p]
    | Option.none => acc) []

/-- `PhoneService.get_phones_by_brand`: brand equality (case-insensitive),
truthy price cap, descending stable sort by price, slice. -/
def getPhonesByBrandSvc (phones : List Phone) (brand : String)
    (max_price : Option Int) (limit : Option Int) : List Phone :=
  let results := phones.filter (fun p => strToLower p.brand == strToLower brand)
  let results : List Phone := match max_price with
    | some m => if m ≠ 0 then results.filter (fun p => p.price ≤ m) else results
    | Option.none => results
  let results := List.insertionSort (fun a b : Phone => b.price ≤ a.price) results
  pySliceToOpt limit results

/-! ## Tool handlers (`tools.py`).  A handler models the body of the Python
tool function: it receives the decoded argument mapping and returns the
result text, or `.error` when the body raises.  (The tool framework's own
schema-validation layer is an external collaborator and is not modelled;
the cited coercion lines are.) -/

/-- Value of an optional tool parameter: the mapping's entry, `None` when
the key is absent (the parameter's default). -/
def argOpt (args : Args) (k : String) : PyVal := Args.getDflt args k PyVal.none

/-- String payload of a `PyVal` where the source expects a string. -/
def pyStrOf : PyVal → String
  | .str s => s
  | _ => ""

/-- Optional-string view of a `PyVal` parameter (`Optional[str]`). -/
def asStrOpt : PyVal → Option String
  | .str s => some s
  | _ => Option.none

/-- Optional-bool view of a `PyVal` parameter (`Optional[bool]`). -/
def asBoolOpt : PyVal → Option Bool
  | .bool b => some b
  | _ => Option.none

/-- `x = int(x) if x else None` (guarded by `if x is not None`): falsy values
resolve to absent, otherwise coerce — which may raise. -/
def coerceTruthyInt (v : PyVal) : Except String (Option Int) :=
  match v with
  | .none => .ok Option.none
  | v => if pyTruthy v then (pyIntOfVal v).map some else .ok Option.none

/-- `if x is not None: x = int(x)` — unconditional coercion of any present
value; `None` passes through. -/
def coerceIntIfPresent (v : PyVal) : Except String (Option Int) :=
  match v with
  | .none => .ok Option.none
  | v => (pyIntOfVal v).map some

/-- Group a reversed digit list into threes with commas. -/
def groupThrees : List Char → List Char
  | a :: b :: c :: d :: rest => a :: b :: c :: ',' :: groupThrees (d :: rest)
  | l => l

/-- Python thousands-separated formatting `fʺ\x7bn:,\x7dʺ`. -/
def fmtComma (n : Int) : String :=
  let digits := (toString n.natAbs).data
  let grouped := (groupThrees digits.reverse).reverse
  (if n < 0 then "-" else "") ++ ⟨grouped⟩

/-- One entry of the `search_phones` result text. -/
def fmtPhoneLineSearch (p : Phone) : String :=
  "**" ++ p.name ++ "** - ₹" ++ fmtComma p.price ++ "\n"
  ++ "  • " ++ toString p.display.size ++ "\x22 " ++ p.display.dtype
  ++ " @ " ++ toString p.display.refreshRate ++ "Hz\n"
  ++ "  • " ++ p.processor ++ " | " ++ toString p.ram ++ "GB RAM\n"
  ++ "  • Camera: " ++ p.camera.main ++ "\n"
  ++ "  • Battery: " ++ toString p.battery.capacity ++ "mAh | "
  ++ beforeFirst p.battery.charging "," ++ "\n"
  ++ "  • Rating: " ++ toString p.rating ++ "/5\n"
  ++ "  • Highlights: " ++ String.intercalate ", " p.highlights ++ "\n\n"

/-- Records shown by the `search_phones` tool handler: argument coercion
(tools.py lines 37–47) followed by the facade query. -/
def searchPhonesToolResults (db : List Phone) (args : Args) : Except String (List Phone) := do
  let query := asStrOpt (argOpt args "query")
  let brand := asStrOpt (argOpt args "brand")
  let min_price ← coerceTruthyInt (argOpt args "min_price")
  let max_price ← coerceTruthyInt (argOpt args "max_price")
  let min_ram ← coerceTruthyInt (argOpt args "min_ram")
  let has_5g := asBoolOpt (argOpt args "has_5g")
  let min_battery ← coerceTruthyInt (argOpt args "min_battery")
  let limit ← coerceIntIfPresent (Args.getDflt args "limit" (.int 5))
  return searchPhonesSvc db query brand min_price max_price min_ram has_5g
    min_battery Option.none Option.none limit

/-- The `search_phones` tool handler (text result). -/
def searchPhonesTool (db : List Phone) (args : Args) : Except String String := do
  let results ← searchPhonesToolResults db args
  if results.isEmpty then
    return "No phones found matching your criteria. Try adjusting your filters."
  else
    return "Found " ++ toString results.length ++ " phones:\n\n"
      ++ String.join (results.map fmtPhoneLineSearch)

/-- One entry of the `get_best_camera_phones` result text. -/
def fmtPhoneLineCamera (i : Nat) (p : Phone) : String :=
  "## " ++ toString (i + 1) ++ ". " ++ p.name ++ " - ₹" ++ fmtComma p.price ++ "\n"
  ++ "- **Main Camera:** " ++ p.camera.main ++ "\n"
  ++ (match p.camera.telephoto with
      | some t => "- **Telephoto:** " ++ t ++ "\n"
      | Option.none => "")
  ++ "- **Camera Features:** " ++ String.intercalate ", " p.camera.features ++ "\n"
  ++ "- **Why it's great:** " ++ String.intercalate ", " p.highlights ++ "\n\n"

/-- The `get_best_camera_phones` tool handler: coercion (tools.py lines
212–216, no truthiness guard before `int`) followed by the facade query. -/
def getBestCameraPhonesTool (db : List Phone) (args : Args) : Except String String := do
  let max_price ← coerceIntIfPresent (argOpt args "max_price")
  let limit ← coerceIntIfPresent (Args.getDflt args "limit" (.int 5))
  let phones := getBestCameraPhonesSvc db max_price limit
  if phones.isEmpty then
    return "No camera phones found within your budget."
  else
    let budget : String := match max_price with
      | some m => if m ≠ 0 then " under ₹" ++ fmtComma m else ""
      | Option.none => ""
    return "# Best Camera Phones" ++ budget ++ "\n\n"
      ++ String.join ((phones.enum).map (fun ip => fmtPhoneLineCamera ip.1 ip.2))

/-! ## Result cards and their side derivation (`agent_builder.py`) -/

/-- UI-ready projection of one dataset record (`ResultCard`). -/
structure PhoneCard where
  id : String
  name : String
  brand : String
  price : Int
  displayStr : String
  camera : String
  batteryStr : String
  rating : Rat
  highlights : List String
deriving DecidableEq

/-- `ShoppingAgent._format_phone_card`. -/
def formatPhoneCard (p : Phone) : PhoneCard :=
  { id := p.id
    name := p.name
    brand := p.brand
    price := p.price
    displayStr := toString p.display.size ++ "\x22 " ++ p.display.dtype
    camera := p.camera.main
    batteryStr := toString p.battery.capacity ++ "mAh"
    rating := p.rating
    highlights := p.highlights }

/-- `if tool_args.get(k): try: x = int(...) except: pass` — a tolerant
numeric argument read used by the card derivation. -/
def tryIntArg (args : Args) (k : String) : Option Int :=
  let v := argOpt args k
  if pyTruthy v then (pyIntOfVal v).toOption else Option.none

/-- The derivation's `limit`: starts at 5, tolerantly overridden. -/
def tryLimitArg (args : Args) : Int :=
  let v := argOpt args "limit"
  if pyTruthy v then ((pyIntOfVal v).toOption).getD 5 else 5

/-- Resolve a token by name first, then by id (the order used by
`_get_phones_from_tool_call`, the reverse of the compare facade's). -/
def resolveNameThenId (db : List Phone) (tok : String) : Option Phone :=
  match getPhoneByName db tok with
  | some p => some p
  | Option.none => getPhoneById db tok

/-- `ShoppingAgent._get_phones_from_tool_call`: the ResultCard side
derivation over the facade, routed by tool name and arguments. -/
def getPhonesFromToolCall (db : List Phone) (toolName : String) (args : Args) : List PhoneCard :=
  if toolName == "compare_phones" then
    let phone_names := pyStrOf (Args.getDflt args "phone_names" (.str ""))
    let names := (splitOnSub phone_names ",").map strTrim
    names.foldl (fun acc n =>
      match resolveNameThenId db n with
      | some p => acc ++ [formatPhoneCard p]
      | Option.none => acc) []
  else if toolName == "get_phone_details" then
    let phone_name := pyStrOf (Args.getDflt args "phone_name" (.str ""))
    match resolveNameThenId db phone_name with
    | some p => [formatPhoneCard p]
    | Option.none => []
  else if toolName == "search_phones" then
    let ucv := argOpt args "use_case"
    let use_case : Option String :=
      if pyTruthy ucv then some (strToLower (pyStrOf ucv)) else Option.none
    let min_price := tryIntArg args "min_price"
    let max_price := tryIntArg args "max_price"
    let min_ram := tryIntArg args "min_ram"
    let limit := tryLimitArg args
    let brandV := argOpt args "brand"
    let results : List Phone :=
      if (match use_case with
          | some uc => ["camera", "photography", "photo", "photos"].contains uc
          | Option.none => false) then
        getBestCameraPhonesSvc db max_price (some limit)
      else if (match use_case with
          | some uc => ["gaming", "game", "games"].contains uc
          | Option.none => false) then
        getGamingPhonesSvc db max_price (some limit)
      else if (match use_case with
          | some uc => ["battery", "battery life", "long battery"].contains uc
          | Option.none => false) then
        getBestBatteryPhonesSvc db max_price (some limit)
      else if (match use_case with
          | some uc => ["compact", "small", "one-hand", "one hand"].contains uc
          | Option.none => false) then
        getCompactPhonesSvc db min_price max_price min_ram (some limit)
      else if pyTruthy brandV then
        getPhonesByBrandSvc db (pyStrOf brandV) max_price (some limit)
      else
        searchPhonesSvc db Option.none (asStrOpt brandV) min_price max_price min_ram
          Option.none Option.none Option.none Option.none (some limit)
    results.map formatPhoneCard
  else []

/-! ## Session history store -/

/-- One stored conversation turn (`\x7brole, content\x7d` history entries). -/
inductive Turn
  | userT (content : String)
  | assistantT (content : String)
deriving DecidableEq

/-- `ShoppingAgent._add_to_history`: append the exchange, then keep only the
last 20 turns (`history[-20:]`). -/
def addToHistory (history : List Turn) (humanMsg aiMsg : String) : List Turn :=
  let h2 := history ++ [Turn.userT humanMsg, Turn.assistantT aiMsg]
  if 20 < h2.length then h2.drop (h2.length - 20) else h2

/-- A session's history after a sequence of completed exchanges, starting
from the empty history a fresh session id gets. -/
def runExchanges (exchanges : List (String × String)) : List Turn :=
  exchanges.foldl (fun h e => addToHistory h e.1 e.2) []

/-! ## Tool-orchestration loop -/

/-- One model-issued tool invocation; `arguments = none` models a payload
`json.loads` rejects (treated as the empty mapping). -/
structure ToolCallMsg where
  id : String
  name : String
  arguments : Option Args
deriving DecidableEq

/-- One structured model response (`content` and/or tool calls). -/
structure ModelMsg where
  content : Option String
  toolCalls : List ToolCallMsg
deriving DecidableEq

/-- Outcome of one backend call: a response, or a raised exception. -/
inductive BackendStep
  | ok (m : ModelMsg)
  | raise
deriving DecidableEq

/-- A context message of the running conversation transcript. -/
inductive Msg
  | system (content : String)
  | user (content : String)
  | assistant (content : String) (toolCalls : List ToolCallMsg)
  | toolMsg (tool_call_id : String) (content : String)
deriving DecidableEq

/-- A registered tool: name and handler. -/
abbrev Registry := List (String × (Args → Except String String))

/-- Mutable state threaded through the loop: transcript, collected cards,
captured comparison artifact. -/
structure LoopState where
  msgs : List Msg
  collected : List PhoneCard
  comparisonTable : Option String

/-- The text the loop records for one tool call: the handler's result, a
per-call error text when the handler raises, or a synthetic not-found text
for an unknown name. -/
def toolResultText (tools : Registry) (name : String) (args : Args) : String :=
  match List.find? (fun t => t.1 == name) tools with
  | Option.none => "Tool " ++ name ++ " not found"
  | some td =>
    match td.2 args with
    | .ok text => text
    | .error e => "Error executing tool: " ++ e

/-- Dispatch of one tool call (agent_builder.py lines 195–233): parse
arguments (malformed → empty), invoke the first handler with a matching
name, derive cards and capture a comparison artifact on success, convert a
handler exception to error text, synthesize a not-found text for unknown
names, and append the tool turn. -/
def processToolCall (tools : Registry) (db : List Phone) (st : LoopState)
    (tc : ToolCallMsg) : LoopState :=
  let args := tc.arguments.getD []
  match List.find? (fun t => t.1 == tc.name) tools with
  | Option.none =>
    { st with msgs := st.msgs ++ [Msg.toolMsg tc.id ("Tool " ++ tc.name ++ " not found")] }
  | some td =>
    match td.2 args with
    | .error e =>
      { st with msgs := st.msgs ++ [Msg.toolMsg tc.id ("Error executing tool: " ++ e)] }
    | .ok text =>
      let cards := getPhonesFromToolCall db tc.name args
      let table := if tc.name == "compare_phones" && text != "" && strContainsSub text "---"
        then some text else st.comparisonTable
      { msgs := st.msgs ++ [Msg.toolMsg tc.id text]
        collected := st.collected ++ cards
        comparisonTable := table }

/-- The `while iteration < max_iterations` loop.  Returns the loop-set final
response (`""` when the cap forced termination), the last backend response,
and the state; `.error` models an exception escaping a backend call. -/
def runLoop (tools : Registry) (db : List Phone) :
    Nat → List BackendStep → Option ModelMsg → LoopState →
    Except Unit (String × Option ModelMsg × LoopState)
  | 0, _, last, st => .ok ("", last, st)
  | _ + 1, [], _, _ => .error ()
  | _ + 1, BackendStep.raise :: _, _, _ => .error ()
  | n + 1, BackendStep.ok m :: rest, _, st =>
    if m.toolCalls.isEmpty then
      .ok (m.content.getD "", some m, st)
    else
      let st1 := { st with
        msgs := st.msgs ++ [Msg.assistant (m.content.getD "") m.toolCalls] }
      let st2 := m.toolCalls.foldl (processToolCall tools db) st1
      runLoop tools db n rest (some m) st2

/-- The structured value `chat` returns to the caller. -/
structure ChatResult where
  response : String
  phones : List PhoneCard
  rtype : String
deriving DecidableEq

/-- The degraded response produced when an exception escapes the loop. -/
def errorResult : ChatResult :=
  { response := "I encountered an error processing your request. Please try again."
    phones := []
    rtype := "error" }

/-- Observable outcome of one `chat` call: the returned result, the
session's history afterwards, and the final transcript. -/
structure ChatOutput where
  result : ChatResult
  history : List Turn
  transcript : List Msg
deriving DecidableEq

/-- ResultCard deduplication by `id`, first occurrence wins. -/
def dedupGo (seen : List String) : List PhoneCard → List PhoneCard
  | [] => []
  | c :: rest =>
    if seen.contains c.id then dedupGo seen rest
    else c :: dedupGo (c.id :: seen) rest

/-- The finalization dedup (`seen_ids` loop, agent_builder.py 258–263). -/
def dedupById (cards : List PhoneCard) : List PhoneCard := dedupGo [] cards

/-- Tabular portion of a comparison artifact: the text before its
`## Analysis` section, stripped of surrounding whitespace. -/
def tabularPortion (t : String) : String := strTrim (beforeFirst t "## Analysis")

/-- Comparison-artifact injection (agent_builder.py 248–252): when an
artifact was captured and the final response lacks the `---` marker,
prepend the artifact's tabular portion. -/
def injectComparison (table : Option String) (resp : String) : String :=
  match table with
  | some t =>
    if t ≠ "" && !strContainsSub resp "---" then
      tabularPortion t ++ "\n\n" ++ resp
    else resp
  | Option.none => resp

/-- Finalization shared by both terminal paths: inject the comparison
artifact, append the exchange to the session history, dedup and cap the
cards, classify the outcome. -/
def finalizeChat (message : String) (history : List Turn) (fr : String)
    (st : LoopState) : ChatOutput :=
  let f2 := injectComparison st.comparisonTable fr
  let h2 := addToHistory history message f2
  let phones := pySliceTo 5 (dedupById st.collected)
  { result := { response := f2
                phones := phones
                rtype := if phones.isEmpty then "general" else "recommendation" }
    history := h2
    transcript := st.msgs }

/-- History turns rendered into the model context. -/
def turnToMsg : Turn → Msg
  | .userT c => .user c
  | .assistantT c => .assistant c []

/-- The loop's initial context: system prompt, trimmed history, new user
turn. -/
def initState (sysPrompt message : String) (history : List Turn) : LoopState :=
  { msgs := [Msg.system sysPrompt] ++ history.map turnToMsg ++ [Msg.user message]
    collected := []
    comparisonTable := Option.none }

/-- `ShoppingAgent.chat` from the history read onwards (the adversarial and
tech-term short circuits ahead of the `try` block are external
collaborators): run the loop against the scripted backend, fall back to the
last response's content when the loop set none, finalize, and convert any
escaping exception into the degraded error result with the history
untouched. -/
def chat (sysPrompt : String) (tools : Registry) (db : List Phone)
    (script : List BackendStep) (message : String) (history : List Turn) : ChatOutput :=
  match runLoop tools db 5 script Option.none (initState sysPrompt message history) with
  | .error _ => { result := errorResult, history := history, transcript := [] }
  | .ok (f0, lastOpt, st) =>
    if f0 == "" then
      match lastOpt with
      | some r => finalizeChat message history (r.content.getD "") st
      | Option.none => { result := errorResult, history := history, transcript := [] }
    else finalizeChat message history f0 st

/-! ## Shared lemmas -/

theorem isEmpty_false_of_ne_nil {α : Type _} {l : List α} (h : l ≠ []) :
    l.isEmpty = false := by
  cases l with
  | nil => exact absurd rfl h
  | cons a t => rfl

theorem addToHistory_le20 (h : List Turn) (u a : String) (hh : h.length ≤ 20) :
    (addToHistory h u a).length ≤ 20 := by
  unfold addToHistory
  by_cases hc : 20 < (h ++ [Turn.userT u, Turn.assistantT a]).length
  · simp only [if_pos hc, List.length_drop]
    omega
  · simp only [if_neg hc]
    omega

theorem addToHistory_last_pair (h : List Turn) (u a : String) :
    (addToHistory h u a).drop ((addToHistory h u a).length - 2)
      = [Turn.userT u, Turn.assistantT a] := by
  unfold addToHistory
  have hlen : (h ++ [Turn.userT u, Turn.assistantT a]).length = h.length + 2 := by
    simp
  by_cases hc : 20 < (h ++ [Turn.userT u, Turn.assistantT a]).length
  · simp only [if_pos hc, List.length_drop, List.drop_drop]
    have harith :
        (h ++ [Turn.userT u, Turn.assistantT a]).length - 20
          + ((h ++ [Turn.userT u, Turn.assistantT a]).length
              - ((h ++ [Turn.userT u, Turn.assistantT a]).length - 20) - 2) = h.length := by
      omega
    rw [harith, List.drop_left]
  · simp only [if_neg hc]
    rw [hlen]
    have harith : h.length + 2 - 2 = h.length := by omega
    rw [harith, List.drop_left]

theorem runExchanges_le20 (exchanges : List (String × String)) :
    (runExchanges exchanges).length ≤ 20 := by
  suffices hgen : ∀ (init : List Turn), init.length ≤ 20 →
      (exchanges.foldl (fun h e => addToHistory h e.1 e.2) init).length ≤ 20 by
    exact hgen [] (by simp)
  induction exchanges with
  | nil => intro init hi; simpa using hi
  | cons e t ih => intro init hi; exact ih _ (addToHistory_le20 _ _ _ hi)

/-- C1: starting from the empty history of a fresh session, after any
sequence of exchanges appended via `_add_to_history` the stored history has
at most 20 turns, and immediately after any append its last two turns are
the user message and assistant response of the most recent exchange, in
that order. -/
theorem c1_history_bound_and_last_pair (exchanges : List (String × String)) (u a : String) :
    (runExchanges (exchanges ++ [(u, a)])).length ≤ 20 ∧
    (runExchanges (exchanges ++ [(u, a)])).drop
        ((runExchanges (exchanges ++ [(u, a)])).length - 2)
      = [Turn.userT u, Turn.assistantT a] := by
  have hfold : runExchanges (exchanges ++ [(u, a)])
      = addToHistory (runExchanges exchanges) u a := by
    simp [runExchanges, List.foldl_append]
  rw [hfold]
  exact ⟨addToHistory_le20 _ _ _ (runExchanges_le20 exchanges),
         addToHistory_last_pair _ _ _⟩

theorem str_contains_iff {l : List String} {x : String} : l.contains x = true ↔ x ∈ l := by
  induction l with
  | nil => simp
  | cons a t ih => simp [List.contains_cons, ih]

theorem dedupGo_sublist (seen : List String) (l : List PhoneCard) :
    List.Sublist (dedupGo seen l) l := by
  induction l generalizing seen with
  | nil => simp [dedupGo]
  | cons c rest ih =>
    unfold dedupGo
    by_cases hc : seen.contains c.id
    · simp only [if_pos hc]
      exact List.Sublist.cons _ (ih seen)
    · simp only [if_neg hc]
      exact List.Sublist.cons₂ _ (ih _)

theorem dedupGo_id_spec (seen : List String) (l : List PhoneCard) :
    (∀ c ∈ dedupGo seen l, ¬ c.id ∈ seen) ∧ ((dedupGo seen l).map PhoneCard.id).Nodup := by
  induction l generalizing seen with
  | nil => simp [dedupGo]
  | cons c rest ih =>
    unfold dedupGo
    by_cases hc : seen.contains c.id
    · simp only [if_pos hc]
      exact ih seen
    · simp only [if_neg hc]
      obtain ⟨h1, h2⟩ := ih (c.id :: seen)
      refine ⟨?_, ?_⟩
      · intro d hd
        rcases List.mem_cons.mp hd with rfl | hd'
        · intro hmem
          exact hc (str_contains_iff.mpr hmem)
        · intro hmem
          exact h1 d hd' (List.mem_cons_of_mem _ hmem)
      · simp only [List.map_cons, List.nodup_cons]
        refine ⟨?_, h2⟩
        intro hmem
        obtain ⟨d, hd, hde⟩ := List.mem_map.mp hmem
        exact h1 d hd (by rw [hde]; exact List.mem_cons_self _ _)

theorem dedupGo_eq_self (seen : List String) (l : List PhoneCard)
    (hdisj : ∀ c ∈ l, ¬ c.id ∈ seen) (hnd : (l.map PhoneCard.id).Nodup) :
    dedupGo seen l = l := by
  induction l generalizing seen with
  | nil => rfl
  | cons c rest ih =>
    unfold dedupGo
    have hc : ¬ seen.contains c.id = true := by
      intro h
      exact hdisj c (List.mem_cons_self _ _) (str_contains_iff.mp h)
    simp only [if_neg hc]
    rw [List.map_cons, List.nodup_cons] at hnd
    congr 1
    apply ih
    · intro d hd hmem
      rcases List.mem_cons.mp hmem with heq | hmem'
      · have hdm : d.id ∈ rest.map PhoneCard.id := List.mem_map_of_mem _ hd
        rw [heq] at hdm
        exact hnd.1 hdm
      · exact hdisj d (List.mem_cons_of_mem _ hd) hmem'
    · exact hnd.2

theorem dedupGo_covers (seen : List String) (l : List PhoneCard) :
    ∀ c ∈ l, c.id ∈ seen ∨ c.id ∈ (dedupGo seen l).map PhoneCard.id := by
  induction l generalizing seen with
  | nil => simp
  | cons c rest ih =>
    intro d hd
    unfold dedupGo
    by_cases hc : seen.contains c.id
    · simp only [if_pos hc]
      rcases List.mem_cons.mp hd with rfl | hd'
      · left
        exact str_contains_iff.mp hc
      · exact ih seen d hd'
    · simp only [if_neg hc]
      rcases List.mem_cons.mp hd with rfl | hd'
      · right
        simp
      · rcases ih (c.id :: seen) d hd' with hs | hdd
        · rcases List.mem_cons.mp hs with heq | hs'
          · right
            simp [heq]
          · left
            exact hs'
        · right
          simp only [List.map_cons]
          exact List.mem_cons_of_mem _ hdd

theorem dedupGo_first_occ (seen : List String) (l : List PhoneCard) :
    ∀ c ∈ dedupGo seen l, List.find? (fun d => d.id == c.id) l = some c := by
  induction l generalizing seen with
  | nil => simp [dedupGo]
  | cons a rest ih =>
    intro c hc
    unfold dedupGo at hc
    by_cases ha : seen.contains a.id
    · rw [if_pos ha] at hc
      have hne : (a.id == c.id) = false := by
        rw [beq_eq_false_iff_ne]
        intro heq
        have hcs := (dedupGo_id_spec seen rest).1 c hc
        exact hcs (heq ▸ str_contains_iff.mp ha)
      rw [List.find?_cons]
      simp only [hne]
      exact ih seen c hc
    · rw [if_neg ha] at hc
      rcases List.mem_cons.mp hc with rfl | hc'
      · rw [List.find?_cons]
        simp
      · have hcs := (dedupGo_id_spec (a.id :: seen) rest).1 c hc'
        have hne : (a.id == c.id) = false := by
          rw [beq_eq_false_iff_ne]
          intro heq
          exact hcs (heq ▸ List.mem_cons_self _ _)
        rw [List.find?_cons]
        simp only [hne]
        exact ih (a.id :: seen) c hc'

theorem dedup_idem (l : List PhoneCard) : dedupById (dedupById l) = dedupById l :=
  dedupGo_eq_self [] _ (fun _ _ h => absurd h (List.not_mem_nil _))
    (dedupGo_id_spec [] l).2

theorem finalizeChat_rtype (message : String) (history : List Turn) (fr : String)
    (st : LoopState) : (finalizeChat message history fr st).result.rtype ≠ "error" := by
  unfold finalizeChat
  dsimp only
  split <;> decide

theorem chat_cases (sys : String) (tools : Registry) (db : List Phone)
    (script : List BackendStep) (message : String) (history : List Turn) :
    chat sys tools db script message history
        = { result := errorResult, history := history, transcript := [] } ∨
    ∃ fr st, chat sys tools db script message history = finalizeChat message history fr st := by
  unfold chat
  rcases hr : runLoop tools db 5 script Option.none (initState sys message history)
    with e | ⟨f0, lastOpt, st⟩
  · left
    rfl
  · dsimp only
    by_cases hf : f0 == ""
    · rw [if_pos hf]
      rcases lastOpt with _ | r
      · left
        rfl
      · right
        exact ⟨_, _, rfl⟩
    · rw [if_neg hf]
      right
      exact ⟨_, _, rfl⟩

/-- C4: whenever `chat` reports `type = error` (in particular when the
backend call raises on the first iteration), the result is exactly the
degraded apology response with an empty card list, no exception reaches
the caller, and the session history is unchanged — no partial write. -/
theorem c4_error_degradation (sys : String) (tools : Registry) (db : List Phone)
    (script : List BackendStep) (message : String) (history : List Turn) :
    ((chat sys tools db script message history).result.rtype = "error" →
      (chat sys tools db script message history).result = errorResult ∧
      (chat sys tools db script message history).history = history) ∧
    (script.head? = some BackendStep.raise →
      chat sys tools db script message history
        = { result := errorResult, history := history, transcript := [] }) := by
  constructor
  · intro herr
    rcases chat_cases sys tools db script message history with hch | ⟨fr, st, hch⟩
    · rw [hch]
      exact ⟨rfl, rfl⟩
    · rw [hch] at herr
      exact absurd herr (finalizeChat_rtype _ _ _ _)
  · intro hh
    rcases script with _ | ⟨s, rest⟩
    · simp at hh
    · have hs : s = BackendStep.raise := by simpa using hh
      subst hs
      rfl

theorem c4_witness :
    (chat "sys" [] [] [BackendStep.raise] "hi" [Turn.userT "a"]).result.rtype = "error" ∧
    [BackendStep.raise].head? = some BackendStep.raise ∧
    chat "sys" [] [] [BackendStep.raise] "hi" [Turn.userT "a"]
      = { result := errorResult, history := [Turn.userT "a"], transcript := [] } :=
  ⟨rfl, rfl,
    (c4_error_degradation "sys" [] [] [BackendStep.raise] "hi" [Turn.userT "a"]).2 rfl⟩

/-- C5: the finalization dedup keeps the first occurrence of each id in
first-seen order: it is an id-nodup sublist covering every collected id in
which every kept card is the *first* card of its id in the input (so, the
sublist order being the input order, the output lists the ids' first
occurrences in first-seen order); the capped dedup is idempotent and
returns at most 5 cards, and a non-error `chat` outcome is classified
`recommendation` exactly when some card survives. -/
theorem c5_dedup_cap_classify (l : List PhoneCard) (sys : String) (tools : Registry)
    (db : List Phone) (script : List BackendStep) (message : String) (history : List Turn) :
    List.Sublist (dedupById l) l ∧
    ((dedupById l).map PhoneCard.id).Nodup ∧
    (∀ c ∈ l, c.id ∈ (dedupById l).map PhoneCard.id) ∧
    (∀ c ∈ dedupById l, List.find? (fun d => d.id == c.id) l = some c) ∧
    dedupById (dedupById l) = dedupById l ∧
    pySliceTo 5 (dedupById (pySliceTo 5 (dedupById l))) = pySliceTo 5 (dedupById l) ∧
    (pySliceTo 5 (dedupById l)).length ≤ 5 ∧
    ((chat sys tools db script message history).result.rtype ≠ "error" →
      ((chat sys tools db script message history).result.rtype = "recommendation"
        ↔ (chat sys tools db script message history).result.phones ≠ [])) := by
  have hslice : ∀ m : List PhoneCard, pySliceTo 5 m = m.take 5 := by
    intro m
    simp [pySliceTo]
  refine ⟨dedupGo_sublist [] l, (dedupGo_id_spec [] l).2, ?_, dedupGo_first_occ [] l,
    dedup_idem l, ?_, ?_, ?_⟩
  · intro c hc
    rcases dedupGo_covers [] l c hc with hs | hd
    · exact absurd hs (List.not_mem_nil _)
    · exact hd
  · rw [hslice, hslice]
    have hndt : (((dedupById l).take 5).map PhoneCard.id).Nodup :=
      List.Nodup.sublist (List.Sublist.map _ (List.take_sublist _ _))
        (dedupGo_id_spec [] l).2
    have hid : dedupById ((dedupById l).take 5) = (dedupById l).take 5 :=
      dedupGo_eq_self [] _ (fun _ _ h => absurd h (List.not_mem_nil _)) hndt
    rw [hid, List.take_take]
    norm_num
  · rw [hslice, List.length_take]
    exact Nat.min_le_left _ _
  · intro hne
    rcases chat_cases sys tools db script message history with hch | ⟨fr, st, hch⟩
    · rw [hch] at hne
      exact absurd rfl hne
    · rw [hch]
      unfold finalizeChat
      dsimp only
      by_cases he : (pySliceTo 5 (dedupById st.collected)).isEmpty
      · rw [if_pos he]
        constructor
        · intro h
          exact absurd h (by decide)
        · intro h
          exact absurd (List.isEmpty_iff.mp he) h
      · rw [if_neg he]
        constructor
        · intro _
          intro hnil
          rw [hnil] at he
          exact he rfl
        · intro _
          rfl

theorem c5_witness :
    ((chat "sys" [] [] [BackendStep.ok { content := some "hello", toolCalls := [] }]
        "hi" []).result.rtype ≠ "error") ∧
    ((chat "sys" [] [] [BackendStep.ok { content := some "hello", toolCalls := [] }]
        "hi" []).result.rtype = "recommendation"
      ↔ (chat "sys" [] [] [BackendStep.ok { content := some "hello", toolCalls := [] }]
          "hi" []).result.phones ≠ []) :=
  ⟨by decide,
    (c5_dedup_cap_classify [] "sys" [] []
      [BackendStep.ok { content := some "hello", toolCalls := [] }] "hi" []).2.2.2.2.2.2.2
      (by decide)⟩

/-! ## Loop-stepping lemmas -/

theorem runLoop_step_tools (tools : Registry) (db : List Phone) (n : Nat)
    (rest : List BackendStep) (last : Option ModelMsg) (st : LoopState)
    (m : ModelMsg) (hm : m.toolCalls ≠ []) :
    runLoop tools db (n + 1) (BackendStep.ok m :: rest) last st
      = runLoop tools db n rest (some m)
          (m.toolCalls.foldl (processToolCall tools db)
            { st with msgs := st.msgs ++ [Msg.assistant (m.content.getD "") m.toolCalls] }) := by
  rw [runLoop]
  simp [isEmpty_false_of_ne_nil hm]

theorem runLoop_break (tools : Registry) (db : List Phone) (n : Nat)
    (rest : List BackendStep) (last : Option ModelMsg) (st : LoopState)
    (m : ModelMsg) (hm : m.toolCalls = []) :
    runLoop tools db (n + 1) (BackendStep.ok m :: rest) last st
      = .ok (m.content.getD "", some m, st) := by
  rw [runLoop]
  simp [hm]

theorem processToolCall_table_ne (tools : Registry) (db : List Phone)
    (st : LoopState) (tc : ToolCallMsg) (h : tc.name ≠ "compare_phones") :
    (processToolCall tools db st tc).comparisonTable = st.comparisonTable := by
  unfold processToolCall
  rcases hf : List.find? (fun t => t.1 == tc.name) tools with _ | td
  · simp only [hf]
  · simp only [hf]
    rcases hh : td.2 (tc.arguments.getD []) with e | text
    · simp only [hh]
    · simp only [hh]
      rw [if_neg]
      intro hand
      rcases Bool.and_eq_true_iff.mp hand with ⟨hand2, _⟩
      rcases Bool.and_eq_true_iff.mp hand2 with ⟨hname, _⟩
      exact h (by simpa using hname)

theorem foldl_table_ne (tools : Registry) (db : List Phone)
    (batch : List ToolCallMsg) (st : LoopState)
    (h : ∀ tc ∈ batch, tc.name ≠ "compare_phones") :
    (batch.foldl (processToolCall tools db) st).comparisonTable = st.comparisonTable := by
  induction batch generalizing st with
  | nil => rfl
  | cons tc rest ih =>
    rw [List.foldl_cons, ih _ (fun x hx => h x (List.mem_cons_of_mem _ hx)),
        processToolCall_table_ne _ _ _ _ (h tc (List.mem_cons_self _ _))]

/-- The `last` response carried out of the loop after consuming `ms`. -/
def lastOf : List ModelMsg → Option ModelMsg → Option ModelMsg
  | [], last => last
  | m :: rest, _ => lastOf rest (some m)

/-- A run in which every scripted response requests tools exhausts the
iteration budget: the loop-set final response stays `""`, the last response
is carried out, and (absent compare calls) no comparison artifact is
captured. -/
theorem runLoop_all_tools (tools : Registry) (db : List Phone)
    (ms : List ModelMsg) (last : Option ModelMsg) (st : LoopState)
    (hall : ∀ m ∈ ms, m.toolCalls ≠ [])
    (hnc : ∀ m ∈ ms, ∀ tc ∈ m.toolCalls, tc.name ≠ "compare_phones") :
    ∃ stf, runLoop tools db ms.length (ms.map BackendStep.ok) last st
        = .ok ("", lastOf ms last, stf)
      ∧ stf.comparisonTable = st.comparisonTable := by
  induction ms generalizing last st with
  | nil => exact ⟨st, rfl, rfl⟩
  | cons m rest ih =>
    rw [List.length_cons, List.map_cons,
        runLoop_step_tools tools db _ _ _ _ m (hall m (List.mem_cons_self _ _))]
    simp only [lastOf]
    obtain ⟨stf, hf, ht⟩ := ih (some m)
      (m.toolCalls.foldl (processToolCall tools db)
        { st with msgs := st.msgs ++ [Msg.assistant (m.content.getD "") m.toolCalls] })
      (fun x hx => hall x (List.mem_cons_of_mem _ hx))
      (fun x hx => hnc x (List.mem_cons_of_mem _ hx))
    refine ⟨stf, hf, ?_⟩
    rw [ht, foldl_table_ne _ _ _ _ (hnc m (List.mem_cons_self _ _))]

/-- A tool-call round whose single call names an unregistered tool. -/
def capToolCall : ToolCallMsg := { id := "t1", name := "nosuch", arguments := some [] }

/-- A content-free model response that requests one tool call. -/
def capMsg : ModelMsg := { content := Option.none, toolCalls := [capToolCall] }

/-- Five consecutive tool-requesting responses: the loop's iteration cap. -/
def capScript : List BackendStep := List.replicate 5 (BackendStep.ok capMsg)

/-- C2 counterexample: a run that hits the iteration cap with an empty last
content returns the empty string (and a non-error type), not the generic
non-empty fallback text the claim asserts. -/
theorem c2_counterexample :
    (chat "sys" [] [] capScript "hi" []).result.response = "" ∧
    (chat "sys" [] [] capScript "hi" []).result.response
      ≠ "I found some information for you." ∧
    (chat "sys" [] [] capScript "hi" []).result.rtype = "general" := by
  refine ⟨rfl, ?_, rfl⟩
  decide

/-- C2 (amended): if the iteration cap (5) is reached before a response
without tool calls, the final response equals the last model response's
content — the empty string when that content is empty or absent (the
generic fallback text is produced only on the path where reading the
content raises) — and the forced termination is not reported as an
error. -/
theorem c2_cap_content (sys message : String) (tools : Registry) (db : List Phone)
    (history : List Turn) (r1 r2 r3 r4 r5 : ModelMsg)
    (h1 : r1.toolCalls ≠ []) (h2 : r2.toolCalls ≠ []) (h3 : r3.toolCalls ≠ [])
    (h4 : r4.toolCalls ≠ []) (h5 : r5.toolCalls ≠ [])
    (hnc : ∀ m ∈ [r1, r2, r3, r4, r5], ∀ tc ∈ m.toolCalls, tc.name ≠ "compare_phones") :
    (chat sys tools db [BackendStep.ok r1, BackendStep.ok r2, BackendStep.ok r3,
        BackendStep.ok r4, BackendStep.ok r5] message history).result.response
      = r5.content.getD "" ∧
    (chat sys tools db [BackendStep.ok r1, BackendStep.ok r2, BackendStep.ok r3,
        BackendStep.ok r4, BackendStep.ok r5] message history).result.rtype ≠ "error" := by
  have hall : ∀ m ∈ [r1, r2, r3, r4, r5], ModelMsg.toolCalls m ≠ [] := by
    intro m hm
    simp only [List.mem_cons, List.not_mem_nil, or_false] at hm
    rcases hm with rfl | rfl | rfl | rfl | rfl
    exacts [h1, h2, h3, h4, h5]
  obtain ⟨stf, hrun, htab⟩ := runLoop_all_tools tools db [r1, r2, r3, r4, r5]
    Option.none (initState sys message history) hall hnc
  have hrun5 : runLoop tools db 5 [BackendStep.ok r1, BackendStep.ok r2, BackendStep.ok r3,
      BackendStep.ok r4, BackendStep.ok r5] Option.none (initState sys message history)
      = Except.ok ("", some r5, stf) := hrun
  have htab0 : stf.comparisonTable = Option.none := htab
  have hchat : chat sys tools db [BackendStep.ok r1, BackendStep.ok r2, BackendStep.ok r3,
      BackendStep.ok r4, BackendStep.ok r5] message history
      = finalizeChat message history (r5.content.getD "") stf := by
    unfold chat
    rw [hrun5]
    simp
  rw [hchat]
  constructor
  · unfold finalizeChat
    dsimp only
    rw [htab0]
    rfl
  · exact finalizeChat_rtype _ _ _ _

/-- A tool-requesting response carrying the text used by the C2 witness. -/
def capLastMsg : ModelMsg := { content := some "last words", toolCalls := [capToolCall] }

theorem str_length_ne_zero {s : String} (h : s ≠ "") : s.length ≠ 0 := by
  intro h0
  apply h
  apply String.ext
  have hd : s.data = [] := List.length_eq_zero.mp h0
  rw [hd]

/-- C6: when a comparison artifact was captured and the final response
lacks the `---` table marker, the finalized response is the artifact's
tabular portion (the text before `## Analysis`, stripped of surrounding
whitespace) prepended to the response — in particular that tabular portion
is a prefix of the finalized response; when the response already contains
the marker, or no artifact exists, the response is unchanged. -/
theorem c6_comparison_injection (t resp : String) (ht : t ≠ "")
    (hm : strContainsSub resp "---" = false) :
    injectComparison (some t) resp = tabularPortion t ++ "\n\n" ++ resp ∧
    (∃ rest, injectComparison (some t) resp = tabularPortion t ++ rest) ∧
    (∀ r2, strContainsSub r2 "---" = true → injectComparison (some t) r2 = r2) ∧
    (∀ r2, injectComparison Option.none r2 = r2) := by
  have hcond : (decide ¬t = "" && !strContainsSub resp "---") = true := by
    simp [ht, hm]
  have h1 : injectComparison (some t) resp = tabularPortion t ++ "\n\n" ++ resp := by
    unfold injectComparison
    dsimp only
    rw [if_pos hcond]
  refine ⟨h1, ⟨"\n\n" ++ resp, by rw [h1, String.append_assoc]⟩, ?_, fun r2 => rfl⟩
  intro r2 hr2
  unfold injectComparison
  dsimp only
  rw [if_neg]
  simp [hr2]

theorem c6_witness :
    ("| a |\n| --- |\n## Analysis\nblah" ≠ "") ∧
    strContainsSub "final words" "---" = false ∧
    injectComparison (some "| a |\n| --- |\n## Analysis\nblah") "final words"
      = tabularPortion "| a |\n| --- |\n## Analysis\nblah" ++ "\n\n" ++ "final words" ∧
    injectComparison (some "| a |\n| --- |\n## Analysis\nblah") "final words"
      = "| a |\n| --- |" ++ "\n\n" ++ "final words" :=
  ⟨by decide, by decide,
    (c6_comparison_injection "| a |\n| --- |\n## Analysis\nblah" "final words"
      (by decide) (by decide)).1,
    by decide⟩

/-- The unknown-tool synthetic result and per-call error conversion never
remove the suffix: a non-empty final response stays non-empty after
comparison injection. -/
theorem injectComparison_ne_empty (table : Option String) (r : String) (hr : r ≠ "") :
    injectComparison table r ≠ "" := by
  unfold injectComparison
  rcases table with _ | t
  · exact hr
  · dsimp only
    by_cases hc : (decide ¬t = "" && !strContainsSub r "---") = true
    · rw [if_pos hc]
      intro he
      have hlen : (tabularPortion t ++ "\n\n" ++ r).length = 0 := by
        rw [he]
        rfl
      rw [String.length_append, String.length_append] at hlen
      exact str_length_ne_zero hr (by omega)
    · rw [if_neg hc]
      exact hr

theorem processToolCall_msgs (tools : Registry) (db : List Phone) (st : LoopState)
    (tc : ToolCallMsg) :
    (processToolCall tools db st tc).msgs
      = st.msgs ++ [Msg.toolMsg tc.id (toolResultText tools tc.name (tc.arguments.getD []))] := by
  unfold processToolCall toolResultText
  rcases hf : List.find? (fun t => t.1 == tc.name) tools with _ | td
  · simp only [hf]
  · simp only [hf]
    rcases hh : td.2 (tc.arguments.getD []) with e | text <;> simp only [hh]

theorem foldl_msgs (tools : Registry) (db : List Phone) (batch : List ToolCallMsg)
    (st : LoopState) :
    (batch.foldl (processToolCall tools db) st).msgs
      = st.msgs ++ batch.map
          (fun tc => Msg.toolMsg tc.id (toolResultText tools tc.name (tc.arguments.getD []))) := by
  induction batch generalizing st with
  | nil => simp
  | cons tc rest ih => simp [List.foldl_cons, processToolCall_msgs, ih]

theorem toolResultText_unknown (tools : Registry) (name : String) (args : Args)
    (h : ∀ t ∈ tools, t.1 ≠ name) :
    toolResultText tools name args = "Tool " ++ name ++ " not found" := by
  unfold toolResultText
  have hf : List.find? (fun t => t.1 == name) tools = Option.none := by
    apply List.find?_eq_none.mpr
    intro x hx
    simp [h x hx]
  rw [hf]

/-- C8: a tool-call batch containing an unregistered name still runs to a
normal completion: the unknown call is answered by a synthetic error-text
tool turn, every sibling call in the batch is answered in order, no
exception escapes (the outcome is not the degraded error result), and the
returned final response is non-empty. -/
theorem c8_unknown_tool (sys message : String) (tools : Registry) (db : List Phone)
    (history : List Turn) (cnt : Option String) (batch : List ToolCallMsg)
    (tcu : ToolCallMsg) (c : String)
    (hmem : tcu ∈ batch) (hunk : ∀ t ∈ tools, t.1 ≠ tcu.name) (hc : c ≠ "") :
    (chat sys tools db [BackendStep.ok { content := cnt, toolCalls := batch },
        BackendStep.ok { content := some c, toolCalls := [] }] message history).result.rtype
      ≠ "error" ∧
    (chat sys tools db [BackendStep.ok { content := cnt, toolCalls := batch },
        BackendStep.ok { content := some c, toolCalls := [] }] message history).result.response
      ≠ "" ∧
    Msg.toolMsg tcu.id ("Tool " ++ tcu.name ++ " not found")
      ∈ (chat sys tools db [BackendStep.ok { content := cnt, toolCalls := batch },
          BackendStep.ok { content := some c, toolCalls := [] }] message history).transcript ∧
    ∀ tc ∈ batch, Msg.toolMsg tc.id (toolResultText tools tc.name (tc.arguments.getD []))
      ∈ (chat sys tools db [BackendStep.ok { content := cnt, toolCalls := batch },
          BackendStep.ok { content := some c, toolCalls := [] }] message history).transcript := by
  have hbne : ({ content := cnt, toolCalls := batch } : ModelMsg).toolCalls ≠ [] :=
    List.ne_nil_of_mem hmem
  have hrun : runLoop tools db 5 [BackendStep.ok { content := cnt, toolCalls := batch },
      BackendStep.ok { content := some c, toolCalls := [] }] Option.none
      (initState sys message history)
      = Except.ok (c, some { content := some c, toolCalls := ([] : List ToolCallMsg) },
          batch.foldl (processToolCall tools db)
            { msgs := (initState sys message history).msgs
                ++ [Msg.assistant (cnt.getD "") batch]
              collected := []
              comparisonTable := Option.none }) := by
    have h1 := runLoop_step_tools tools db 4
      [BackendStep.ok { content := some c, toolCalls := [] }] Option.none
      (initState sys message history) { content := cnt, toolCalls := batch } hbne
    have h2 := runLoop_break tools db 3 []
      (some ({ content := cnt, toolCalls := batch } : ModelMsg))
      (batch.foldl (processToolCall tools db)
        { msgs := (initState sys message history).msgs
            ++ [Msg.assistant (cnt.getD "") batch]
          collected := []
          comparisonTable := Option.none })
      { content := some c, toolCalls := [] } rfl
    exact h1.trans h2
  have hceq : (c == "") = false := beq_eq_false_iff_ne.mpr hc
  have hchat : chat sys tools db [BackendStep.ok { content := cnt, toolCalls := batch },
      BackendStep.ok { content := some c, toolCalls := [] }] message history
      = finalizeChat message history c
          (batch.foldl (processToolCall tools db)
            { msgs := (initState sys message history).msgs
                ++ [Msg.assistant (cnt.getD "") batch]
              collected := []
              comparisonTable := Option.none }) := by
    unfold chat
    rw [hrun]
    simp [hceq]
  rw [hchat]
  have htr : (finalizeChat message history c
      (batch.foldl (processToolCall tools db)
        { msgs := (initState sys message history).msgs
            ++ [Msg.assistant (cnt.getD "") batch]
          collected := []
          comparisonTable := Option.none })).transcript
      = ((initState sys message history).msgs ++ [Msg.assistant (cnt.getD "") batch])
        ++ batch.map (fun tc => Msg.toolMsg tc.id
            (toolResultText tools tc.name (tc.arguments.getD []))) := by
    unfold finalizeChat
    exact foldl_msgs tools db batch _
  refine ⟨finalizeChat_rtype _ _ _ _, ?_, ?_, ?_⟩
  · unfold finalizeChat
    dsimp only
    exact injectComparison_ne_empty _ _ hc
  · rw [htr]
    apply List.mem_append_right
    have hmm := List.mem_map_of_mem
      (fun tc => Msg.toolMsg tc.id (toolResultText tools tc.name (tc.arguments.getD []))) hmem
    dsimp only at hmm
    rwa [toolResultText_unknown tools tcu.name (tcu.arguments.getD []) hunk] at hmm
  · intro tc htc
    rw [htr]
    apply List.mem_append_right
    exact List.mem_map_of_mem _ htc

/-- The unknown tool call used by the C8 witness. -/
def c8ToolCallW : ToolCallMsg := { id := "id1", name := "mystery", arguments := some [] }

/-- The two-step script used by the C8 witness. -/
def c8ScriptW : List BackendStep :=
  [BackendStep.ok { content := Option.none, toolCalls := [c8ToolCallW] },
   BackendStep.ok { content := some "done", toolCalls := [] }]

theorem c8_witness :
    c8ToolCallW ∈ [c8ToolCallW] ∧
    ("done" : String) ≠ "" ∧
    ((chat "sys" [] [] c8ScriptW "hi" []).result.rtype ≠ "error" ∧
     (chat "sys" [] [] c8ScriptW "hi" []).result.response ≠ "" ∧
     Msg.toolMsg c8ToolCallW.id ("Tool " ++ c8ToolCallW.name ++ " not found")
       ∈ (chat "sys" [] [] c8ScriptW "hi" []).transcript ∧
     ∀ tc ∈ [c8ToolCallW],
       Msg.toolMsg tc.id (toolResultText [] tc.name (tc.arguments.getD []))
         ∈ (chat "sys" [] [] c8ScriptW "hi" []).transcript) :=
  ⟨by decide, by decide,
    c8_unknown_tool "sys" "hi" [] [] [] Option.none [c8ToolCallW] c8ToolCallW "done"
      (by decide) (fun t ht => absurd ht (List.not_mem_nil t)) (by decide)⟩

theorem listContainsSub_nil (l : List Char) : listContainsSub [] l = true := by
  induction l with
  | nil => rfl
  | cons c t ih => simp [listContainsSub]

theorem strContainsSub_empty_pat (s : String) : strContainsSub s "" = true :=
  listContainsSub_nil s.data

theorem strToLower_empty_eq (p : Phone) (h : strToLower p.name = "") : p.name = "" := by
  apply String.ext
  have hd : (strToLower p.name).data = p.name.data.map Char.toLower := rfl
  rw [h] at hd
  have : p.name.data.map Char.toLower = [] := hd.symm
  exact List.map_eq_nil_iff.mp this

/-- Behaviour of the fuzzy lookup at the empty search key: every phone is a
substring candidate, so the head of the stable sort by name length — a
phone of globally minimal name length — is returned. -/
theorem getPhoneByNameCore_empty (db : List Phone) (hdb : db ≠ []) :
    ∃ p, getPhoneByNameCore db "" = some p ∧ p ∈ db ∧
      ∀ q ∈ db, p.name.length ≤ q.name.length := by
  unfold getPhoneByNameCore
  rcases hf : List.find? (fun p => strToLower p.name == "") db with _ | p
  · simp only [hf]
    have hfil : db.filter (fun p => strContainsSub (strToLower p.name) "") = db := by
      apply List.filter_eq_self.mpr
      intro a _
      exact strContainsSub_empty_pat _
    rw [hfil, isEmpty_false_of_ne_nil hdb]
    have hperm := List.perm_insertionSort nameLenLE db
    have hsorted := List.sorted_insertionSort nameLenLE db
    rcases hs : List.insertionSort nameLenLE db with _ | ⟨p, t⟩
    · exfalso
      rw [hs] at hperm
      exact hdb (hperm.symm.eq_nil)
    · rw [hs] at hperm hsorted
      refine ⟨p, by simp, hperm.subset (List.mem_cons_self p t), ?_⟩
      intro q hq
      have hq2 : q ∈ p :: t := hperm.symm.subset hq
      rcases List.mem_cons.mp hq2 with rfl | hq3
      · exact Nat.le_refl _
      · exact (List.sorted_cons.mp hsorted).1 q hq3
  · have hpq := List.find?_some hf
    have hname : p.name = "" := strToLower_empty_eq p (eq_of_beq (by simpa using hpq))
    refine ⟨p, by simp only [hf], List.mem_of_find?_eq_some hf, ?_⟩
    intro q hq
    rw [hname]
    exact Nat.zero_le _

/-- C9: on any non-empty database, an empty or whitespace-only name never
fails to resolve — it returns a phone whose name length is globally
minimal — and a `get_phone_details` card derivation with the `phone_name`
argument missing therefore attaches that phone's card. -/
theorem c9_empty_name_lookup (db : List Phone) (w : String) (args : Args)
    (hdb : db ≠ []) (hw : strTrim (strToLower w) = "")
    (hargs : Args.get args "phone_name" = Option.none) :
    ∃ p, getPhoneByName db w = some p ∧ p ∈ db ∧
      (∀ q ∈ db, p.name.length ≤ q.name.length) ∧
      getPhonesFromToolCall db "get_phone_details" args = [formatPhoneCard p] := by
  obtain ⟨p, hp, hmem, hmin⟩ := getPhoneByNameCore_empty db hdb
  have hresolve : resolveNameThenId db "" = some p := by
    unfold resolveNameThenId getPhoneByName
    have hz : strTrim (strToLower "") = "" := rfl
    rw [hz, hp]
  refine ⟨p, ?_, hmem, hmin, ?_⟩
  · unfold getPhoneByName
    rw [hw]
    exact hp
  · unfold getPhonesFromToolCall
    simp only [Args.getDflt, hargs]
    simp [hresolve, pyStrOf]

/-- A 5-character-name phone used by concrete witnesses. -/
def phoneAlpha : Phone :=
  { id := "p1", name := "Alpha", brand := "x", price := 50, ram := 8, fiveG := true
    display := { size := 6, dtype := "OLED", refreshRate := 120 }
    camera := { main := "50 MP", telephoto := Option.none, features := [] }
    battery := { capacity := 5000, charging := "67W" }
    processor := "Snapdragon", rating := 4, highlights := [] }

/-- A 7-character-name phone used by concrete witnesses. -/
def phoneBeta : Phone :=
  { id := "p2", name := "Betamax", brand := "y", price := 70, ram := 12, fiveG := true
    display := { size := 6, dtype := "LCD", refreshRate := 90 }
    camera := { main := "64 MP", telephoto := Option.none, features := [] }
    battery := { capacity := 4500, charging := "45W" }
    processor := "Dimensity", rating := 4, highlights := [] }

theorem c9_witness :
    ([phoneBeta, phoneAlpha] ≠ ([] : List Phone)) ∧
    strTrim (strToLower "   ") = "" ∧
    (∃ p, getPhoneByName [phoneBeta, phoneAlpha] "   " = some p ∧
      p ∈ [phoneBeta, phoneAlpha] ∧
      (∀ q ∈ [phoneBeta, phoneAlpha], p.name.length ≤ q.name.length) ∧
      getPhonesFromToolCall [phoneBeta, phoneAlpha] "get_phone_details" []
        = [formatPhoneCard p]) :=
  ⟨by decide, by decide,
    c9_empty_name_lookup [phoneBeta, phoneAlpha] "   " [] (by decide) (by decide) rfl⟩

theorem noneFilter_nil (o : Option β) (pred : β → Phone → Bool) :
    noneFilter o pred [] = [] := by
  cases o <;> rfl

theorem noneFilter_mem {o : Option β} {pred : β → Phone → Bool} {l : List Phone}
    {p : Phone} (h : p ∈ noneFilter o pred l) : p ∈ l := by
  cases o with
  | none => exact h
  | some x => exact List.mem_of_mem_filter h

theorem brandFilter_mem {brand : Option String} {l : List Phone} {p : Phone}
    (h : p ∈ brandFilter brand l) : p ∈ l := by
  cases brand with
  | none => exact h
  | some b =>
    unfold brandFilter at h
    dsimp only at h
    by_cases hb : b ≠ ""
    · rw [if_pos hb] at h
      exact List.mem_of_mem_filter h
    · rw [if_neg hb] at h
      exact h

theorem queryStage_nil (query : Option String) : queryStage query [] = [] := by
  cases query with
  | none => rfl
  | some q =>
    unfold queryStage
    dsimp only
    split
    · rfl
    · rfl

theorem pySliceToOpt_nil (n : Option Int) : pySliceToOpt n ([] : List Phone) = [] := by
  cases n <;> simp [pySliceToOpt, pySliceTo]

/-- C10: a `max_price` of 0 is ignored by every ranked-retrieval operation
(the bound is tested by truthiness), but is applied literally by the
facade's `search_phones` (tested by `is not None`), which then returns the
empty list on any database of positive prices, whatever the other
filters. -/
theorem c10_zero_price_bound (db : List Phone) (b : String) (mn mr lim : Option Int)
    (hpos : ∀ p ∈ db, 0 < p.price) :
    getBestCameraPhonesSvc db (some 0) lim = getBestCameraPhonesSvc db Option.none lim ∧
    getBestBatteryPhonesSvc db (some 0) lim = getBestBatteryPhonesSvc db Option.none lim ∧
    getGamingPhonesSvc db (some 0) lim = getGamingPhonesSvc db Option.none lim ∧
    getCompactPhonesSvc db mn (some 0) mr lim = getCompactPhonesSvc db mn Option.none mr lim ∧
    getPhonesByBrandSvc db b (some 0) lim = getPhonesByBrandSvc db b Option.none lim ∧
    (∀ (q br : Option String) (mnp mram : Option Int) (h5 : Option Bool)
        (mb mrr : Option Int) (ho : Option Bool),
      searchPhonesSvc db q br mnp (some 0) mram h5 mb mrr ho lim = []) := by
  refine ⟨?_, ?_, ?_, ?_, ?_, ?_⟩
  · simp [getBestCameraPhonesSvc]
  · simp [getBestBatteryPhonesSvc]
  · simp [getGamingPhonesSvc]
  · simp [getCompactPhonesSvc]
  · simp [getPhonesByBrandSvc]
  · intro q br mnp mram h5 mb mrr ho
    have hnil : noneFilter (some 0) (fun m p => decide (p.price ≤ m))
        (noneFilter mnp (fun m p => decide (m ≤ p.price)) (brandFilter br db)) = [] := by
      apply List.filter_eq_nil_iff.mpr
      intro a ha
      have hmem : a ∈ db := brandFilter_mem (noneFilter_mem ha)
      have hp := hpos a hmem
      simp only [decide_eq_true_eq]
      omega
    simp only [searchPhonesSvc]
    rw [hnil, noneFilter_nil, noneFilter_nil, noneFilter_nil, noneFilter_nil,
        noneFilter_nil, queryStage_nil, pySliceToOpt_nil]

theorem c10_witness :
    (∀ p ∈ [phoneAlpha, phoneBeta], 0 < p.price) ∧
    getBestCameraPhonesSvc [phoneAlpha, phoneBeta] (some 0) (some 5)
      = getBestCameraPhonesSvc [phoneAlpha, phoneBeta] Option.none (some 5) ∧
    searchPhonesSvc [phoneAlpha, phoneBeta] Option.none Option.none Option.none (some 0)
      Option.none Option.none Option.none Option.none Option.none (some 5) = [] :=
  ⟨by decide,
    (c10_zero_price_bound [phoneAlpha, phoneBeta] "x" Option.none Option.none (some 5)
      (by decide)).1,
    (c10_zero_price_bound [phoneAlpha, phoneBeta] "x" Option.none Option.none (some 5)
      (by decide)).2.2.2.2.2 Option.none Option.none Option.none Option.none Option.none
      Option.none Option.none Option.none⟩

instance instDecEqExcept {ε α : Type _} [DecidableEq ε] [DecidableEq α] :
    DecidableEq (Except ε α) := fun a b => by
  cases a <;> cases b
  case error.error e f => exact decidable_of_iff (e = f) (by simp)
  case error.ok e f => exact .isFalse (by simp)
  case ok.error a e => exact .isFalse (by simp)
  case ok.ok a b => exact decidable_of_iff (a = b) (by simp)

theorem args_get_cons (k' : String) (v : PyVal) (rest : Args) (k : String) :
    Args.get ((k', v) :: rest) k = if (k' == k) = true then some v else Args.get rest k := by
  by_cases hk : (k' == k) = true
  · simp [Args.get, List.find?_cons, hk]
  · simp only [Args.get, List.find?_cons]
    rw [Bool.not_eq_true] at hk
    simp [hk]

/-- C3 counterexample: for `search_phones` with a brand and a minimum
price, the handler's records (facade search with the `min_price` filter)
and the side-derived cards (brand route, which ignores `min_price`)
disagree: the derivation attaches a card for a phone the handler never
showed. -/
theorem c3_counterexample :
    getPhonesFromToolCall [phoneAlpha] "search_phones"
        [("brand", PyVal.str "x"), ("min_price", PyVal.int 100)]
      = [formatPhoneCard phoneAlpha] ∧
    searchPhonesToolResults [phoneAlpha]
        [("brand", PyVal.str "x"), ("min_price", PyVal.int 100)]
      = .ok [] ∧
    getPhonesFromToolCall [phoneAlpha] "search_phones"
        [("brand", PyVal.str "x"), ("min_price", PyVal.int 100)]
      ≠ ((searchPhonesToolResults [phoneAlpha]
            [("brand", PyVal.str "x"), ("min_price", PyVal.int 100)]).toOption.getD []).map
          formatPhoneCard := by
  refine ⟨by decide, by decide, by decide⟩

/-- A numeric argument both routings treat identically: absent or an
integer. -/
def numArgOk (args : Args) (k : String) : Prop :=
  Args.get args k = Option.none ∨ ∃ n : Int, Args.get args k = some (PyVal.int n)

/-- A `limit` argument both routings treat identically: absent or a
non-zero integer (at 0 the handler honours it while the derivation keeps
its default 5). -/
def limitArgOk (args : Args) : Prop :=
  Args.get args "limit" = Option.none
    ∨ ∃ n : Int, n ≠ 0 ∧ Args.get args "limit" = some (PyVal.int n)

theorem coerce_eq_try (args : Args) (k : String) (h : numArgOk args k) :
    coerceTruthyInt (argOpt args k) = .ok (tryIntArg args k) := by
  rcases h with h | ⟨n, h⟩
  · simp [argOpt, Args.getDflt, h, coerceTruthyInt, tryIntArg, pyTruthy]
  · by_cases hn : n = 0
    · subst hn
      simp [argOpt, Args.getDflt, h, coerceTruthyInt, tryIntArg, pyTruthy]
    · simp [argOpt, Args.getDflt, h, coerceTruthyInt, tryIntArg, pyTruthy, hn,
        pyIntOfVal, Except.toOption, Except.map]

theorem limit_eq_try (args : Args) (h : limitArgOk args) :
    coerceIntIfPresent (Args.getDflt args "limit" (.int 5))
      = .ok (some (tryLimitArg args)) := by
  rcases h with h | ⟨n, hn, h⟩
  · simp [Args.getDflt, h, coerceIntIfPresent, tryLimitArg, argOpt, pyTruthy,
      pyIntOfVal, Except.map]
  · simp [Args.getDflt, h, coerceIntIfPresent, tryLimitArg, argOpt, pyTruthy, hn,
      pyIntOfVal, Except.toOption, Except.map]

/-- C3 (amended): the side derivation routes `search_phones` by `use_case`
and `brand` to the facade's ranked operations — routing the handler itself
never performs — and ignores `query`, `has_5g`, `min_battery` and invalid
numeric strings; the derived cards therefore provably correspond to the
handler's records only when those routing-divergent fields are absent and
the shared numeric fields are absent or integers (with a non-zero limit):
then both sides compute the same facade search query. -/
theorem c3_routing_agreement (db : List Phone) (args : Args)
    (hq : Args.get args "query" = Option.none)
    (huc : Args.get args "use_case" = Option.none)
    (hb : Args.get args "brand" = Option.none)
    (h5 : Args.get args "has_5g" = Option.none)
    (hbat : Args.get args "min_battery" = Option.none)
    (hmp : numArgOk args "min_price") (hxp : numArgOk args "max_price")
    (hmr : numArgOk args "min_ram") (hlim : limitArgOk args) :
    searchPhonesToolResults db args
        = .ok (searchPhonesSvc db Option.none Option.none (tryIntArg args "min_price")
            (tryIntArg args "max_price") (tryIntArg args "min_ram") Option.none
            Option.none Option.none Option.none (some (tryLimitArg args))) ∧
    getPhonesFromToolCall db "search_phones" args
        = (searchPhonesSvc db Option.none Option.none (tryIntArg args "min_price")
            (tryIntArg args "max_price") (tryIntArg args "min_ram") Option.none
            Option.none Option.none Option.none (some (tryLimitArg args))).map
          formatPhoneCard := by
  have e1 := coerce_eq_try args "min_price" hmp
  have e2 := coerce_eq_try args "max_price" hxp
  have e3 := coerce_eq_try args "min_ram" hmr
  have e4 : coerceTruthyInt (argOpt args "min_battery") = .ok Option.none := by
    simp [argOpt, Args.getDflt, hbat, coerceTruthyInt]
  have e5 := limit_eq_try args hlim
  have e6 : asStrOpt (argOpt args "query") = Option.none := by
    simp [argOpt, Args.getDflt, hq, asStrOpt]
  have e7 : asStrOpt (argOpt args "brand") = Option.none := by
    simp [argOpt, Args.getDflt, hb, asStrOpt]
  have e8 : asBoolOpt (argOpt args "has_5g") = Option.none := by
    simp [argOpt, Args.getDflt, h5, asBoolOpt]
  constructor
  · unfold searchPhonesToolResults
    rw [e1, e2, e3, e4, e5, e6, e7, e8]
    simp [bind, Except.bind, pure, Except.pure]
  · have hu : argOpt args "use_case" = PyVal.none := by
      simp [argOpt, Args.getDflt, huc]
    have hbv : argOpt args "brand" = PyVal.none := by
      simp [argOpt, Args.getDflt, hb]
    unfold getPhonesFromToolCall
    rw [hu, hbv]
    simp [pyTruthy, asStrOpt]

theorem c3_witness :
    numArgOk [("max_price", PyVal.int 60)] "max_price" ∧
    (searchPhonesToolResults [phoneAlpha] [("max_price", PyVal.int 60)]
        = .ok (searchPhonesSvc [phoneAlpha] Option.none Option.none
            (tryIntArg [("max_price", PyVal.int 60)] "min_price")
            (tryIntArg [("max_price", PyVal.int 60)] "max_price")
            (tryIntArg [("max_price", PyVal.int 60)] "min_ram") Option.none
            Option.none Option.none Option.none
            (some (tryLimitArg [("max_price", PyVal.int 60)]))) ∧
      getPhonesFromToolCall [phoneAlpha] "search_phones" [("max_price", PyVal.int 60)]
        = (searchPhonesSvc [phoneAlpha] Option.none Option.none
            (tryIntArg [("max_price", PyVal.int 60)] "min_price")
            (tryIntArg [("max_price", PyVal.int 60)] "max_price")
            (tryIntArg [("max_price", PyVal.int 60)] "min_ram") Option.none
            Option.none Option.none Option.none
            (some (tryLimitArg [("max_price", PyVal.int 60)]))).map formatPhoneCard) :=
  ⟨Or.inr ⟨60, rfl⟩,
    c3_routing_agreement [phoneAlpha] [("max_price", PyVal.int 60)] rfl rfl rfl rfl rfl
      (Or.inl rfl) (Or.inr ⟨60, rfl⟩) (Or.inl rfl) (Or.inl rfl)⟩

/-- C7 counterexample: a non-numeric string in a numeric field makes both
cited handlers raise (`ValueError` escapes the handler body) instead of
treating the field as absent. -/
theorem c7_counterexample :
    (searchPhonesTool [] [("min_price", PyVal.str "abc")]).isOk = false ∧
    (getBestCameraPhonesTool [] [("max_price", PyVal.str "abc")]).isOk = false := by
  refine ⟨by decide, by decide⟩

/-- C7 (amended): an invalid (non-numeric, non-empty) string in a numeric
field makes the handler raise `ValueError`, which the dispatch layer
converts into a per-call error text rather than propagating; absent fields
resolve to absent, `search_phones` also resolves falsy values such as the
empty string to absent, while `get_best_camera_phones` coerces any present
value, so even the empty string raises there. -/
theorem c7_invalid_numeric (db : List Phone) (args : Args) (s : String)
    (hs : Args.get args "min_price" = some (PyVal.str s))
    (hinv : pyParseInt s = Option.none) (hne : s ≠ "") :
    searchPhonesTool db args
        = .error ("invalid literal for int() with base 10: '" ++ s ++ "'") ∧
    toolResultText [("search_phones", searchPhonesTool db)] "search_phones" args
        = "Error executing tool: " ++ ("invalid literal for int() with base 10: '" ++ s ++ "'") ∧
    (∀ (db2 : List Phone) (rest : Args),
      searchPhonesToolResults db2 (("min_price", PyVal.str "") :: rest)
        = searchPhonesToolResults db2 (("min_price", PyVal.none) :: rest)) ∧
    (∀ (db2 : List Phone) (rest : Args),
      (getBestCameraPhonesTool db2 (("max_price", PyVal.str "") :: rest)).isOk = false) := by
  have hv : argOpt args "min_price" = PyVal.str s := by
    simp [argOpt, Args.getDflt, hs]
  have hco : coerceTruthyInt (argOpt args "min_price")
      = .error ("invalid literal for int() with base 10: '" ++ s ++ "'") := by
    rw [hv]
    simp [coerceTruthyInt, pyTruthy, hne, pyIntOfVal, hinv, Except.map]
  have hmain : searchPhonesTool db args
      = .error ("invalid literal for int() with base 10: '" ++ s ++ "'") := by
    unfold searchPhonesTool searchPhonesToolResults
    rw [hco]
    simp [bind, Except.bind]
  refine ⟨hmain, ?_, ?_, ?_⟩
  · unfold toolResultText
    simp [List.find?_cons, hmain]
  · intro db2 rest
    unfold searchPhonesToolResults
    simp [argOpt, Args.getDflt, args_get_cons, coerceTruthyInt, pyTruthy]
  · intro db2 rest
    have hm : argOpt (("max_price", PyVal.str "") :: rest) "max_price" = PyVal.str "" := by
      simp [argOpt, Args.getDflt, args_get_cons]
    have hpp : pyParseInt "" = Option.none := rfl
    unfold getBestCameraPhonesTool
    rw [hm]
    simp only [coerceIntIfPresent, pyIntOfVal, hpp, bind, Except.bind, Except.map]
    rfl

theorem c7_witness :
    Args.get [("min_price", PyVal.str "abc")] "min_price" = some (PyVal.str "abc") ∧
    pyParseInt "abc" = Option.none ∧
    ("abc" : String) ≠ "" ∧
    searchPhonesTool [] [("min_price", PyVal.str "abc")]
      = .error ("invalid literal for int() with base 10: '" ++ "abc" ++ "'") ∧
    toolResultText [("search_phones", searchPhonesTool [])] "search_phones"
        [("min_price", PyVal.str "abc")]
      = "Error executing tool: " ++ ("invalid literal for int() with base 10: '" ++ "abc" ++ "'") :=
  ⟨rfl, rfl, by decide,
    (c7_invalid_numeric [] [("min_price", PyVal.str "abc")] "abc" rfl rfl (by decide)).1,
    (c7_invalid_numeric [] [("min_price", PyVal.str "abc")] "abc" rfl rfl (by decide)).2.1⟩

theorem c2_witness :
    (chat "sys" [] [] [BackendStep.ok capMsg, BackendStep.ok capMsg, BackendStep.ok capMsg,
        BackendStep.ok capMsg, BackendStep.ok capLastMsg] "hi" []).result.response
      = "last words" ∧
    (chat "sys" [] [] [BackendStep.ok capMsg, BackendStep.ok capMsg, BackendStep.ok capMsg,
        BackendStep.ok capMsg, BackendStep.ok capLastMsg] "hi" []).result.rtype ≠ "error" :=
  c2_cap_content "sys" "hi" [] [] [] capMsg capMsg capMsg capMsg capLastMsg
    (by decide) (by decide) (by decide) (by decide) (by decide) (by decide)

end MobileAgent
